import Mathlib

/-!
Verification of the WAVE-metadata preset generator (`make_presets.py`).

The Python source is shallowly embedded as follows:
- a binary file handle becomes `ByteStream`: the file's bytes (`List Nat`,
  each < 256 in practice) together with the current read position;
- `f.read(n)` returns the next at-most-`n` bytes and advances the position by
  the number of bytes actually read, exactly like a Python file object;
- Python exceptions (`EOFError`, `ValueError`, `struct.error`) become explicit
  `Except PErr` results, with one constructor per raise site;
- the `while True` chunk-scan loop of `find_chunk` becomes `findChunkLoop`
  with an explicit fuel argument.  Each iteration of the source loop either
  terminates (returns or reaches end of stream) or consumes at least 8 bytes
  of position, so the top-level call's fuel `data.length` is never exhausted
  when scanning starts at byte 12 (`findChunkLoop_fuel` below makes the fuel
  irrelevance precise);
- Python's `str.replace` (replace all non-overlapping occurrences, scanning
  left to right) becomes `replaceListF`, again with fuel: every step consumes
  at least one character, so fuel `s.length` suffices.  The patterns used by
  the program are all non-empty, matching the guard in `replaceListF`.
-/

/-- Little-endian decoding of exactly two bytes (`struct` format `<H`). -/
def u16le : List Nat → Nat
  | [a, b] => a + 256 * b
  | _ => 0

/-- Little-endian decoding of exactly four bytes (`struct` format `<I`). -/
def u32le : List Nat → Nat
  | [a, b, c, d] => a + 256 * b + 65536 * c + 16777216 * d
  | _ => 0

/-- A binary stream: the underlying bytes and the current read position,
modelling an open Python file object in `rb` mode. -/
structure ByteStream where
  data : List Nat
  pos : Nat
deriving Repr, DecidableEq

/-- Model of Python `f.read(n)`: returns up to `n` bytes starting at the
current position and advances the position by the number of bytes read. -/
def ByteStream.read (s : ByteStream) (n : Nat) : List Nat × ByteStream :=
  let bs := (s.data.drop s.pos).take n
  (bs, ⟨s.data, s.pos + bs.length⟩)

/-- Model of Python `f.seek(p)` (absolute). -/
def ByteStream.seek (s : ByteStream) (p : Nat) : ByteStream :=
  ⟨s.data, p⟩

/-- Model of Python `f.seek(k, 1)` (relative, non-negative offsets only,
which is all the program uses). -/
def ByteStream.seekCur (s : ByteStream) (k : Nat) : ByteStream :=
  ⟨s.data, s.pos + k⟩

/-- The errors the program can raise: `EOFError` from `read_u32le`,
`ValueError("Not a valid RIFF/WAVE file")`, the two
`ValueError("... chunk too small")` sites, and `struct.error` from
unpacking a short buffer. -/
inductive PErr where
  | eofU32
  | notRiffWave
  | fmtTooSmall
  | smplTooSmall
  | structUnpack
deriving Repr, DecidableEq

/-- The ASCII bytes of `b"RIFF"`. -/
def riffTag : List Nat := [82, 73, 70, 70]

/-- The ASCII bytes of `b"WAVE"`. -/
def waveTag : List Nat := [87, 65, 86, 69]

/-- The ASCII bytes of `b"fmt "`. -/
def fmtTag : List Nat := [102, 109, 116, 32]

/-- The ASCII bytes of `b"smpl"`. -/
def smplTag : List Nat := [115, 109, 112, 108]

/-- The ASCII bytes of `b"data"`. -/
def dataTag : List Nat := [100, 97, 116, 97]

/-- Embedding of `read_u32le(f)`: read 4 bytes, raise `EOFError` when fewer
are available, otherwise decode little-endian. -/
def read_u32le (s : ByteStream) : Except PErr (Nat × ByteStream) :=
  let r := s.read 4
  if r.1.length = 4 then Except.ok (u32le r.1, r.2) else Except.error PErr.eofU32

/-- The scan loop of `find_chunk`: repeatedly read an 8-byte chunk header;
on fewer than 8 bytes return not-found, on a tag match return the data
position and declared size, otherwise skip the declared size rounded up to
even (`size + (size & 1)`) and continue.  The result pairs the outcome with
the final stream position.  `fuel` bounds the iteration count; the top-level
caller passes `data.length`, which is never exhausted (each iteration that
continues consumes at least 8 bytes of position). -/
def findChunkLoop (data tag : List Nat) : Nat → Nat → Option (Nat × Nat) × Nat
  | 0, pos => (none, pos)
  | fuel + 1, pos =>
    let hdr := (data.drop pos).take 8
    if hdr.length < 8 then
      (none, pos + hdr.length)
    else if hdr.take 4 = tag then
      (some (pos + 8, u32le (hdr.drop 4)), pos + 8)
    else
      findChunkLoop data tag fuel
        (pos + 8 + (u32le (hdr.drop 4) + u32le (hdr.drop 4) % 2))

/-- Embedding of `find_chunk(f, fourcc)`: seek to 0, validate the 12-byte
`RIFF <size> WAVE` header (raising `ValueError` otherwise), then scan the
chunk list for the tag. -/
def find_chunk (s : ByteStream) (tag : List Nat) :
    Except PErr (Option (Nat × Nat) × ByteStream) :=
  let rd := (s.seek 0).read 12
  if rd.1.length = 12 ∧ rd.1.take 4 = riffTag ∧ rd.1.drop 8 = waveTag then
    let fr := findChunkLoop s.data tag s.data.length rd.2.pos
    Except.ok (fr.1, s.seek fr.2)
  else
    Except.error PErr.notRiffWave

/-- The fields of the dict returned by `read_fmt_metadata` (byte-rate and
block-align are unpacked by the source but not returned). -/
structure FormatInfo where
  audio_format : Nat
  num_channels : Nat
  sample_rate : Nat
  bits_per_sample : Nat
deriving Repr, DecidableEq

/-- Embedding of `read_fmt_metadata(f)`: locate `fmt `, return `none` when
absent, raise when the declared size is under 16, otherwise decode the first
16 data bytes with `struct` format `<HHIIHH` (a short read raises
`struct.error`, modelled by `PErr.structUnpack`). -/
def read_fmt_metadata (s : ByteStream) : Except PErr (Option FormatInfo × ByteStream) :=
  match find_chunk s fmtTag with
  | Except.error e => Except.error e
  | Except.ok (none, f) => Except.ok (none, f)
  | Except.ok (some (pos, size), f) =>
    let f := f.seek pos
    if size < 16 then Except.error PErr.fmtTooSmall
    else
      let f := f.seek pos
      let rd := f.read 16
      if rd.1.length = 16 then
        Except.ok (some {
          audio_format := u16le (rd.1.take 2),
          num_channels := u16le ((rd.1.drop 2).take 2),
          sample_rate := u32le ((rd.1.drop 4).take 4),
          bits_per_sample := u16le ((rd.1.drop 14).take 2) }, rd.2)
      else
        Except.error PErr.structUnpack

/-- One decoded `smpl` loop record (six consecutive u32 fields). -/
structure LoopDescriptor where
  cue_id : Nat
  type : Nat
  start : Nat
  «end» : Nat
  fraction : Nat
  play_count : Nat
deriving Repr, DecidableEq

/-- The dict returned by `read_smpl_metadata`. -/
structure SampleMetadata where
  root_key : Nat
  loops : List LoopDescriptor
deriving Repr, DecidableEq

/-- The `for _ in range(num_loops)` loop of `read_smpl_metadata`: decode `n`
24-byte loop records, each six u32 fields read with `read_u32le`. -/
def readLoops : ByteStream → Nat → Except PErr (List LoopDescriptor × ByteStream)
  | s, 0 => Except.ok ([], s)
  | s, n + 1 =>
    match read_u32le s with
    | Except.error e => Except.error e
    | Except.ok (cue_id, s) =>
      match read_u32le s with
      | Except.error e => Except.error e
      | Except.ok (loop_type, s) =>
        match read_u32le s with
        | Except.error e => Except.error e
        | Except.ok (start, s) =>
          match read_u32le s with
          | Except.error e => Except.error e
          | Except.ok (endv, s) =>
            match read_u32le s with
            | Except.error e => Except.error e
            | Except.ok (fraction, s) =>
              match read_u32le s with
              | Except.error e => Except.error e
              | Except.ok (play_count, s) =>
                match readLoops s n with
                | Except.error e => Except.error e
                | Except.ok (rest, s) =>
                  Except.ok ({ cue_id := cue_id, type := loop_type, start := start,
                               «end» := endv, fraction := fraction,
                               play_count := play_count } :: rest, s)

/-- Embedding of `read_smpl_metadata(f)`: locate `smpl`, return `none` when
absent, raise when the declared size is under 36, otherwise decode the nine
u32 header fields followed by `num_loops` loop records; only the MIDI unity
note (root key) and the loop list are returned. -/
def read_smpl_metadata (s : ByteStream) : Except PErr (Option SampleMetadata × ByteStream) :=
  match find_chunk s smplTag with
  | Except.error e => Except.error e
  | Except.ok (none, f) => Except.ok (none, f)
  | Except.ok (some (pos, size), f) =>
    let f := f.seek pos
    if size < 36 then Except.error PErr.smplTooSmall
    else
      match read_u32le f with
      | Except.error e => Except.error e
      | Except.ok (_manufacturer, f) =>
        match read_u32le f with
        | Except.error e => Except.error e
        | Except.ok (_product, f) =>
          match read_u32le f with
          | Except.error e => Except.error e
          | Except.ok (_sample_period, f) =>
            match read_u32le f with
            | Except.error e => Except.error e
            | Except.ok (midi_unity, f) =>
              match read_u32le f with
              | Except.error e => Except.error e
              | Except.ok (_pitch_fraction, f) =>
                match read_u32le f with
                | Except.error e => Except.error e
                | Except.ok (_smpte_format, f) =>
                  match read_u32le f with
                  | Except.error e => Except.error e
                  | Except.ok (_smpte_offset, f) =>
                    match read_u32le f with
                    | Except.error e => Except.error e
                    | Except.ok (num_loops, f) =>
                      match read_u32le f with
                      | Except.error e => Except.error e
                      | Except.ok (_sampler_data, f) =>
                        match readLoops f num_loops with
                        | Except.error e => Except.error e
                        | Except.ok (loops, f) =>
                          Except.ok (some { root_key := midi_unity, loops := loops }, f)

/-- Embedding of `read_sample_length(f, fmt_meta)`: `none` when the format
info is absent or the `data` chunk is absent or the bytes-per-frame
(`num_channels * bits_per_sample // 8`) is zero; otherwise the declared
`data` byte length floor-divided by bytes-per-frame. -/
def read_sample_length (s : ByteStream) (fmt_meta : Option FormatInfo) :
    Except PErr (Option Nat × ByteStream) :=
  match fmt_meta with
  | none => Except.ok (none, s)
  | some fm =>
    match find_chunk s dataTag with
    | Except.error e => Except.error e
    | Except.ok (none, f) => Except.ok (none, f)
    | Except.ok (some (_pos, size), f) =>
      let bytes_per_frame := fm.num_channels * fm.bits_per_sample / 8
      if bytes_per_frame = 0 then Except.ok (none, f)
      else Except.ok (some (size / bytes_per_frame), f)

/-- One scan step of Python `str.replace` over a character list: when the
(non-empty) pattern is a prefix of the remaining input, emit the replacement
and continue after the matched occurrence; otherwise emit one character and
continue.  `fuel` bounds the recursion; every step consumes at least one
input character, so fuel `l.length` is never exhausted. -/
def replaceListF (pat rep : List Char) : Nat → List Char → List Char
  | _, [] => []
  | 0, l => l
  | fuel + 1, c :: cs =>
    if pat ≠ [] ∧ pat.isPrefixOf (c :: cs) then
      rep ++ replaceListF pat rep fuel (List.drop (pat.length - 1) cs)
    else
      c :: replaceListF pat rep fuel cs

/-- Embedding of Python `s.replace(pat, rep)` for non-empty patterns (the
program only ever replaces the ten fixed non-empty placeholder tokens). -/
def pyReplace (s pat rep : String) : String :=
  String.mk (replaceListF pat.data rep.data s.data.length s.data)

/-- The two attributes of a `pathlib.Path` that `make_preset_text` uses:
`wav_path.name` and `wav_path.stem`. -/
structure WavPath where
  name : String
  stem : String

/-- The placeholder token `\x7b\x7bWAV_FILENAME\x7d\x7d`. -/
def filenameTok : String := "\x7b\x7bWAV_FILENAME\x7d\x7d"

/-- The placeholder token `\x7b\x7bWAV_BASENAME\x7d\x7d`. -/
def basenameTok : String := "\x7b\x7bWAV_BASENAME\x7d\x7d"

/-- The placeholder token `\x7b\x7bROOT_KEY\x7d\x7d`. -/
def rootKeyTok : String := "\x7b\x7bROOT_KEY\x7d\x7d"

/-- The placeholder token `\x7b\x7bLOOP_START\x7d\x7d`. -/
def loopStartTok : String := "\x7b\x7bLOOP_START\x7d\x7d"

/-- The placeholder token `\x7b\x7bLOOP_END\x7d\x7d`. -/
def loopEndTok : String := "\x7b\x7bLOOP_END\x7d\x7d"

/-- The placeholder token `\x7b\x7bHAS_LOOP\x7d\x7d`. -/
def hasLoopTok : String := "\x7b\x7bHAS_LOOP\x7d\x7d"

/-- The placeholder token `\x7b\x7bSAMPLE_RATE\x7d\x7d`. -/
def sampleRateTok : String := "\x7b\x7bSAMPLE_RATE\x7d\x7d"

/-- The placeholder token `\x7b\x7bSAMPLE_LENGTH_SAMPLES\x7d\x7d`. -/
def sampleLenTok : String := "\x7b\x7bSAMPLE_LENGTH_SAMPLES\x7d\x7d"

/-- The placeholder token `\x7b\x7bSAMPLE_START\x7d\x7d`. -/
def sampleStartTok : String := "\x7b\x7bSAMPLE_START\x7d\x7d"

/-- The placeholder token `\x7b\x7bSAMPLE_END\x7d\x7d`. -/
def sampleEndTok : String := "\x7b\x7bSAMPLE_END\x7d\x7d"

/-- The `replacements` dict built inside `make_preset_text`, in the source's
insertion order, including all the preceding local-variable computations
(defaults, first-loop selection, sample start/end). -/
def preset_replacements (wav_path : WavPath) (fmt_meta : Option FormatInfo)
    (smpl_meta : Option SampleMetadata) (sample_length : Option Nat) :
    List (String × String) :=
  let wav_filename := wav_path.name
  let wav_basename := wav_path.stem
  let sample_rate := match fmt_meta with
    | some fm => fm.sample_rate
    | none => 44100
  let sample_length := match sample_length with
    | some n => n
    | none => 0
  let sample_start : Nat := 0
  let sample_end := max (sample_length - 1) 0
  let (root_key?, loop_start?, loop_end?, has_loop) :=
    match smpl_meta with
    | none => ((none : Option Nat), (none : Option Nat), (none : Option Nat), false)
    | some sm =>
      match sm.loops with
      | [] => (some sm.root_key, none, none, false)
      | loop :: _ => (some sm.root_key, some loop.start, some loop.«end», true)
  let root_key := match root_key? with | some v => v | none => 60
  let loop_start := match loop_start? with | some v => v | none => 0
  let loop_end := match loop_end? with | some v => v | none => 0
  [(filenameTok, wav_filename),
   (basenameTok, wav_basename),
   (rootKeyTok, toString root_key),
   (loopStartTok, toString loop_start),
   (loopEndTok, toString loop_end),
   (hasLoopTok, if has_loop then "true" else "false"),
   (sampleRateTok, toString sample_rate),
   (sampleLenTok, toString sample_length),
   (sampleStartTok, toString sample_start),
   (sampleEndTok, toString sample_end)]

/-- Embedding of `make_preset_text`: build the replacement map and apply
each replacement in insertion order to the accumulating result string. -/
def make_preset_text (template : String) (wav_path : WavPath)
    (fmt_meta : Option FormatInfo) (smpl_meta : Option SampleMetadata)
    (sample_length : Option Nat) : String :=
  (preset_replacements wav_path fmt_meta smpl_meta sample_length).foldl
    (fun result kv => pyReplace result kv.1 kv.2) template


/-- Specification-side defaulting table of the metadata mapper (the value
substituted for ROOT_KEY): the decoded root key, or MIDI 60 when the `smpl`
metadata is absent. -/
def rootKeyVal : Option SampleMetadata → Nat
  | none => 60
  | some sm => sm.root_key

/-- Specification-side defaulting table (LOOP_START): the first loop
descriptor's start frame, or 0 when there is no loop. -/
def loopStartVal : Option SampleMetadata → Nat
  | none => 0
  | some sm =>
    match sm.loops with
    | [] => 0
    | l :: _ => l.start

/-- Specification-side defaulting table (LOOP_END): the first loop
descriptor's end frame, or 0 when there is no loop. -/
def loopEndVal : Option SampleMetadata → Nat
  | none => 0
  | some sm =>
    match sm.loops with
    | [] => 0
    | l :: _ => l.«end»

/-- Specification-side defaulting table (HAS_LOOP): true exactly when the
decoded loop list is non-empty. -/
def hasLoopVal : Option SampleMetadata → String
  | none => "false"
  | some sm =>
    match sm.loops with
    | [] => "false"
    | _ :: _ => "true"

/-- Specification-side defaulting table (SAMPLE_RATE): the decoded sample
rate, or 44100 when the format info is absent. -/
def sampleRateVal : Option FormatInfo → Nat
  | none => 44100
  | some fm => fm.sample_rate
/-- Specification-side description of `n` consecutive 24-byte loop records
starting at byte offset `p`: six little-endian u32 fields per record, in the
order cue-id, loop-type, start, end, fraction, play-count. -/
def decodeLoops (data : List Nat) (p : Nat) : Nat → List LoopDescriptor
  | 0 => []
  | n + 1 =>
    { cue_id := u32le ((data.drop p).take 4),
      type := u32le ((data.drop (p + 4)).take 4),
      start := u32le ((data.drop (p + 8)).take 4),
      «end» := u32le ((data.drop (p + 12)).take 4),
      fraction := u32le ((data.drop (p + 16)).take 4),
      play_count := u32le ((data.drop (p + 20)).take 4) } :: decodeLoops data (p + 24) n

/-- The validity condition `find_chunk` checks on the first 12 bytes:
exactly 12 bytes exist, the first four are `RIFF` and bytes 8-12 are
`WAVE` (the four size bytes in between are unconstrained). -/
def validRiffWave (data : List Nat) : Prop :=
  (data.take 12).length = 12 ∧ (data.take 12).take 4 = riffTag ∧ (data.take 12).drop 8 = waveTag

instance validRiffWaveDec (data : List Nat) : Decidable (validRiffWave data) := by
  unfold validRiffWave; infer_instance

/-- A minimal stream with only a `data` chunk of 10 bytes (2-channel 16-bit
frames are 4 bytes, so it holds 2 whole frames and 2 trailing bytes). -/
def streamDataChunk : List Nat :=
  riffTag ++ [0, 0, 0, 0] ++ waveTag ++ dataTag ++ [10, 0, 0, 0] ++
    [1, 2, 3, 4, 5, 6, 7, 8, 9, 10]

/-- A stream that is only the 12-byte `RIFF <size> WAVE` envelope. -/
def streamHeaderOnly : List Nat :=
  riffTag ++ [0, 0, 0, 0] ++ waveTag

/-- A stream whose first chunk (`JUNK`) has odd declared length 15, padded
with one byte, followed by a `data` chunk of 4 bytes. -/
def streamOddChunk : List Nat :=
  riffTag ++ [0, 0, 0, 0] ++ waveTag ++
    [74, 85, 78, 75] ++ [15, 0, 0, 0] ++
    [1, 2, 3, 4, 5, 6, 7, 8, 9, 10, 11, 12, 13, 14, 15] ++ [0] ++
    dataTag ++ [4, 0, 0, 0] ++ [1, 2, 3, 4]

/-- A stream with a `smpl` chunk of declared length 60: root key 72 and one
loop record with start 5 and end 9. -/
def streamSmplOneLoop : List Nat :=
  riffTag ++ [0, 0, 0, 0] ++ waveTag ++ smplTag ++ [60, 0, 0, 0] ++
    [0, 0, 0, 0] ++ [0, 0, 0, 0] ++ [0, 0, 0, 0] ++ [72, 0, 0, 0] ++
    [0, 0, 0, 0] ++ [0, 0, 0, 0] ++ [0, 0, 0, 0] ++ [1, 0, 0, 0] ++ [0, 0, 0, 0] ++
    [0, 0, 0, 0] ++ [0, 0, 0, 0] ++ [5, 0, 0, 0] ++ [9, 0, 0, 0] ++
    [0, 0, 0, 0] ++ [0, 0, 0, 0]

/-- The same `smpl` stream with its last byte missing: the loop-record
reads run off the end of the stream. -/
def streamSmplTrunc : List Nat := streamSmplOneLoop.take 79

/-- A stream with a `smpl` chunk of declared length 36, a MIDI unity note
of 200 (outside the 0-127 MIDI note range) and zero loops. -/
def streamSmplHighKey : List Nat :=
  riffTag ++ [0, 0, 0, 0] ++ waveTag ++ smplTag ++ [36, 0, 0, 0] ++
    [0, 0, 0, 0] ++ [0, 0, 0, 0] ++ [0, 0, 0, 0] ++ [200, 0, 0, 0] ++
    [0, 0, 0, 0] ++ [0, 0, 0, 0] ++ [0, 0, 0, 0] ++ [0, 0, 0, 0] ++ [0, 0, 0, 0]

/-- A stream with a `fmt ` chunk of declared length 8, below the 16-byte
minimum. -/
def streamSmallFmt : List Nat :=
  riffTag ++ [0, 0, 0, 0] ++ waveTag ++ fmtTag ++ [8, 0, 0, 0] ++
    [0, 0, 0, 0, 0, 0, 0, 0]

/-- A stream with a `smpl` chunk of declared length 20, below the 36-byte
minimum. -/
def streamSmallSmpl : List Nat :=
  riffTag ++ [0, 0, 0, 0] ++ waveTag ++ smplTag ++ [20, 0, 0, 0] ++
    [0, 0, 0, 0, 0, 0, 0, 0, 0, 0, 0, 0, 0, 0, 0, 0, 0, 0, 0, 0]

def oneLoopRecord : LoopDescriptor :=
  { cue_id := 0, type := 0, start := 5, «end» := 9, fraction := 0, play_count := 0 }

/-- Reading a u32 succeeds exactly when four bytes are available, and then
advances the position by four. -/
lemma read_u32le_ok (data : List Nat) (pos : Nat) (h : pos + 4 ≤ data.length) :
    read_u32le ⟨data, pos⟩ = Except.ok (u32le ((data.drop pos).take 4), ⟨data, pos + 4⟩) := by
  have hl : ((data.drop pos).take 4).length = 4 := by
    rw [List.length_take, List.length_drop]; omega
  simp [read_u32le, ByteStream.read, hl]

/-- Reading a u32 with fewer than four bytes available raises `EOFError`. -/
lemma read_u32le_eof (data : List Nat) (pos : Nat) (h : data.length < pos + 4) :
    read_u32le ⟨data, pos⟩ = Except.error PErr.eofU32 := by
  have hl : ((data.drop pos).take 4).length ≠ 4 := by
    rw [List.length_take, List.length_drop]; omega
  simp only [read_u32le, ByteStream.read, if_neg hl]

/-- When `24 * n` bytes are available, the loop-record reader succeeds,
returns the decoded records, and leaves the position exactly after them. -/
lemma readLoops_ok (data : List Nat) (n pos : Nat) (h : pos + 24 * n ≤ data.length) :
    readLoops ⟨data, pos⟩ n = Except.ok (decodeLoops data pos n, ⟨data, pos + 24 * n⟩) := by
  induction n generalizing pos with
  | zero => simp [readLoops, decodeLoops]
  | succ n ih =>
    have e1 := read_u32le_ok data pos (by omega)
    have e2 := read_u32le_ok data (pos + 4) (by omega)
    have e3 := read_u32le_ok data (pos + 4 + 4) (by omega)
    have e4 := read_u32le_ok data (pos + 4 + 4 + 4) (by omega)
    have e5 := read_u32le_ok data (pos + 4 + 4 + 4 + 4) (by omega)
    have e6 := read_u32le_ok data (pos + 4 + 4 + 4 + 4 + 4) (by omega)
    have e7 := ih (pos + 4 + 4 + 4 + 4 + 4 + 4) (by omega)
    simp only [readLoops, e1, e2, e3, e4, e5, e6, e7, decodeLoops]
    norm_num
    omega

/-- When fewer than `24 * n` bytes are available and `n ≥ 1`, the
loop-record reader fails with the end-of-stream error. -/
lemma readLoops_eof (data : List Nat) :
    ∀ (n pos : Nat), data.length < pos + 24 * n → 1 ≤ n →
      readLoops ⟨data, pos⟩ n = Except.error PErr.eofU32 := by
  intro n
  induction n with
  | zero => intro pos h hn; omega
  | succ n ih =>
    intro pos h _
    by_cases h1 : data.length < pos + 4
    · simp only [readLoops, read_u32le_eof data pos h1]
    · push_neg at h1
      have e1 := read_u32le_ok data pos h1
      by_cases h2 : data.length < pos + 4 + 4
      · simp only [readLoops, e1, read_u32le_eof data (pos + 4) h2]
      · push_neg at h2
        have e2 := read_u32le_ok data (pos + 4) h2
        by_cases h3 : data.length < pos + 4 + 4 + 4
        · simp only [readLoops, e1, e2, read_u32le_eof data (pos + 4 + 4) h3]
        · push_neg at h3
          have e3 := read_u32le_ok data (pos + 4 + 4) h3
          by_cases h4 : data.length < pos + 4 + 4 + 4 + 4
          · simp only [readLoops, e1, e2, e3, read_u32le_eof data (pos + 4 + 4 + 4) h4]
          · push_neg at h4
            have e4 := read_u32le_ok data (pos + 4 + 4 + 4) h4
            by_cases h5 : data.length < pos + 4 + 4 + 4 + 4 + 4
            · simp only [readLoops, e1, e2, e3, e4,
                read_u32le_eof data (pos + 4 + 4 + 4 + 4) h5]
            · push_neg at h5
              have e5 := read_u32le_ok data (pos + 4 + 4 + 4 + 4) h5
              by_cases h6 : data.length < pos + 4 + 4 + 4 + 4 + 4 + 4
              · simp only [readLoops, e1, e2, e3, e4, e5,
                  read_u32le_eof data (pos + 4 + 4 + 4 + 4 + 4) h6]
              · push_neg at h6
                have e6 := read_u32le_ok data (pos + 4 + 4 + 4 + 4 + 4) h6
                have hn' : 1 ≤ n := by omega
                have e7 := ih (pos + 4 + 4 + 4 + 4 + 4 + 4) (by omega) hn'
                simp only [readLoops, e1, e2, e3, e4, e5, e6, e7]

/-- On a valid outer header, `find_chunk` runs the scan loop from byte 12
and returns its outcome, leaving the stream at the loop's final position. -/
lemma find_chunk_valid (s : ByteStream) (tag : List Nat) (hv : validRiffWave s.data) :
    find_chunk s tag =
      Except.ok ((findChunkLoop s.data tag s.data.length 12).1,
        ⟨s.data, (findChunkLoop s.data tag s.data.length 12).2⟩) := by
  obtain ⟨hl, hr, hw⟩ := hv
  simp [find_chunk, ByteStream.read, ByteStream.seek, hl, hr, hw]

/-- On an invalid outer header, `find_chunk` raises the container error. -/
lemma find_chunk_invalid (s : ByteStream) (tag : List Nat) (hv : ¬ validRiffWave s.data) :
    find_chunk s tag = Except.error PErr.notRiffWave := by
  rw [find_chunk]
  rw [if_neg]
  intro hc
  exact hv ⟨by simpa [ByteStream.read, ByteStream.seek] using hc.1,
    by simpa [ByteStream.read, ByteStream.seek] using hc.2.1,
    by simpa [ByteStream.read, ByteStream.seek] using hc.2.2⟩

/-- The initial stream position plays no role in `find_chunk`: the call
starts by seeking to byte 0. -/
lemma find_chunk_pos_irrel (data tag : List Nat) (p q : Nat) :
    find_chunk ⟨data, p⟩ tag = find_chunk ⟨data, q⟩ tag := rfl

/-- A successful `find_chunk` never changes the underlying bytes. -/
lemma find_chunk_data (s : ByteStream) (tag : List Nat) (r : Option (Nat × Nat))
    (s' : ByteStream) (h : find_chunk s tag = Except.ok (r, s')) : s'.data = s.data := by
  rw [find_chunk] at h
  split at h
  · cases h; rfl
  · exact absurd h (by simp)

/-- When the scan loop reports a found chunk, its final position is the
chunk's data position. -/
lemma findChunkLoop_some_pos (data tag : List Nat) :
    ∀ (fuel pos p sz fp : Nat),
      findChunkLoop data tag fuel pos = (some (p, sz), fp) → fp = p := by
  intro fuel
  induction fuel with
  | zero => intro pos p sz fp h; exact absurd h (by simp [findChunkLoop])
  | succ fuel ih =>
    intro pos p sz fp h
    rw [findChunkLoop] at h
    split at h
    · exact absurd h (by simp)
    · split at h
      · have h1 := congrArg Prod.fst h
        have h2 := congrArg Prod.snd h
        simp at h1 h2
        omega
      · exact ih _ _ _ _ h

/-- A found chunk leaves the stream seeked to the chunk's data position. -/
lemma find_chunk_ok_some (s : ByteStream) (tag : List Nat) (pos size : Nat)
    (s1 : ByteStream) (h : find_chunk s tag = Except.ok (some (pos, size), s1)) :
    s1 = ⟨s.data, pos⟩ := by
  rw [find_chunk] at h
  split at h
  · have h1 := congrArg (fun x => match x with
      | Except.ok (r, st) => (r, st)
      | Except.error _ => (none, s1)) h
    simp at h1
    obtain ⟨hfst, hsnd⟩ := h1
    have := findChunkLoop_some_pos s.data tag s.data.length _ pos size _ (Prod.ext hfst rfl)
    rw [← hsnd, ByteStream.seek]
    exact congrArg (fun k => ({ data := s.data, pos := k } : ByteStream)) this
  · exact absurd h (by simp)

/-- Fuel irrelevance for the scan loop: as soon as the fuel dominates the
number of 8-byte headers that fit between `pos` and the end of the data,
adding more fuel does not change the result.  In particular the top-level
fuel `data.length` used by `find_chunk` (scanning from byte 12) behaves
exactly like the unbounded source loop. -/
lemma findChunkLoop_fuel (data tag : List Nat) :
    ∀ (fuel pos : Nat), data.length ≤ 8 * fuel + pos →
      findChunkLoop data tag (fuel + 1) pos = findChunkLoop data tag fuel pos := by
  intro fuel
  induction fuel with
  | zero =>
    intro pos h
    have hd : data.drop pos = [] := List.drop_eq_nil_of_le (by omega)
    simp [findChunkLoop, hd]
  | succ fuel ih =>
    intro pos h
    by_cases h8 : ((data.drop pos).take 8).length < 8
    · simp only [findChunkLoop, if_pos h8]
    · by_cases hm : ((data.drop pos).take 8).take 4 = tag
      · simp only [findChunkLoop, if_neg h8, if_pos hm]
      · have hlen : pos + 8 ≤ data.length := by
          rw [List.length_take, List.length_drop] at h8; omega
        simp only [findChunkLoop, if_neg h8, if_neg hm]
        exact ih _ (by omega)

/-- Master success lemma for the `smpl` decoder: when the chunk is found
with declared size at least 36 and the stream really holds the 36 header
bytes plus `24 * n` loop-record bytes (where `n` is the loop-count field at
offset 28 of the chunk data), decoding succeeds, returns the root key
(offset 12) and the `n` decoded records, and leaves the position exactly
`36 + 24 * n` bytes into the chunk data — the declared size is never
checked against that extent. -/
lemma read_smpl_ok (s : ByteStream) (pos size n : Nat) (s1 : ByteStream)
    (hf : find_chunk s smplTag = Except.ok (some (pos, size), s1))
    (hsz : 36 ≤ size)
    (hn : n = u32le ((s.data.drop (pos + 28)).take 4))
    (hfit : pos + 36 + 24 * n ≤ s.data.length) :
    read_smpl_metadata s =
      Except.ok (some { root_key := u32le ((s.data.drop (pos + 12)).take 4),
                        loops := decodeLoops s.data (pos + 36) n },
                 ⟨s.data, pos + 36 + 24 * n⟩) := by
  have hs1 := find_chunk_ok_some s smplTag pos size s1 hf
  subst hs1
  have e1 := read_u32le_ok s.data pos (by omega)
  have e2 := read_u32le_ok s.data (pos + 4) (by omega)
  have e3 := read_u32le_ok s.data (pos + 4 + 4) (by omega)
  have e4 := read_u32le_ok s.data (pos + 4 + 4 + 4) (by omega)
  have e5 := read_u32le_ok s.data (pos + 4 + 4 + 4 + 4) (by omega)
  have e6 := read_u32le_ok s.data (pos + 4 + 4 + 4 + 4 + 4) (by omega)
  have e7 := read_u32le_ok s.data (pos + 4 + 4 + 4 + 4 + 4 + 4) (by omega)
  have e8 := read_u32le_ok s.data (pos + 4 + 4 + 4 + 4 + 4 + 4 + 4) (by omega)
  have e9 := read_u32le_ok s.data (pos + 4 + 4 + 4 + 4 + 4 + 4 + 4 + 4) (by omega)
  have hnum : u32le ((s.data.drop (pos + 4 + 4 + 4 + 4 + 4 + 4 + 4)).take 4) = n := by
    rw [hn]
  have e10 := readLoops_ok s.data n (pos + 4 + 4 + 4 + 4 + 4 + 4 + 4 + 4 + 4) (by omega)
  simp only [read_smpl_metadata, hf, ByteStream.seek, if_neg (by omega : ¬ size < 36),
    e1, e2, e3, e4, e5, e6, e7, e8, e9, hnum, e10]

/-- Master failure lemma for the `smpl` decoder: same situation but with
fewer bytes available than the 36-byte header plus `24 * n` loop records
require — some u32 read runs off the end of the stream and the decoder
fails with the end-of-stream error. -/
lemma read_smpl_eof (s : ByteStream) (pos size n : Nat) (s1 : ByteStream)
    (hf : find_chunk s smplTag = Except.ok (some (pos, size), s1))
    (hsz : 36 ≤ size)
    (hn : n = u32le ((s.data.drop (pos + 28)).take 4))
    (hover : s.data.length < pos + 36 + 24 * n) :
    read_smpl_metadata s = Except.error PErr.eofU32 := by
  have hs1 := find_chunk_ok_some s smplTag pos size s1 hf
  subst hs1
  have hns : ¬ size < 36 := by omega
  by_cases h1 : s.data.length < pos + 4
  · simp only [read_smpl_metadata, hf, ByteStream.seek, if_neg hns,
      read_u32le_eof s.data pos h1]
  · push_neg at h1
    have e1 := read_u32le_ok s.data pos h1
    by_cases h2 : s.data.length < pos + 4 + 4
    · simp only [read_smpl_metadata, hf, ByteStream.seek, if_neg hns, e1,
        read_u32le_eof s.data (pos + 4) h2]
    · push_neg at h2
      have e2 := read_u32le_ok s.data (pos + 4) h2
      by_cases h3 : s.data.length < pos + 4 + 4 + 4
      · simp only [read_smpl_metadata, hf, ByteStream.seek, if_neg hns, e1, e2,
          read_u32le_eof s.data (pos + 4 + 4) h3]
      · push_neg at h3
        have e3 := read_u32le_ok s.data (pos + 4 + 4) h3
        by_cases h4 : s.data.length < pos + 4 + 4 + 4 + 4
        · simp only [read_smpl_metadata, hf, ByteStream.seek, if_neg hns, e1, e2, e3,
            read_u32le_eof s.data (pos + 4 + 4 + 4) h4]
        · push_neg at h4
          have e4 := read_u32le_ok s.data (pos + 4 + 4 + 4) h4
          by_cases h5 : s.data.length < pos + 4 + 4 + 4 + 4 + 4
          · simp only [read_smpl_metadata, hf, ByteStream.seek, if_neg hns, e1, e2, e3, e4,
              read_u32le_eof s.data (pos + 4 + 4 + 4 + 4) h5]
          · push_neg at h5
            have e5 := read_u32le_ok s.data (pos + 4 + 4 + 4 + 4) h5
            by_cases h6 : s.data.length < pos + 4 + 4 + 4 + 4 + 4 + 4
            · simp only [read_smpl_metadata, hf, ByteStream.seek, if_neg hns,
                e1, e2, e3, e4, e5, read_u32le_eof s.data (pos + 4 + 4 + 4 + 4 + 4) h6]
            · push_neg at h6
              have e6 := read_u32le_ok s.data (pos + 4 + 4 + 4 + 4 + 4) h6
              by_cases h7 : s.data.length < pos + 4 + 4 + 4 + 4 + 4 + 4 + 4
              · simp only [read_smpl_metadata, hf, ByteStream.seek, if_neg hns,
                  e1, e2, e3, e4, e5, e6,
                  read_u32le_eof s.data (pos + 4 + 4 + 4 + 4 + 4 + 4) h7]
              · push_neg at h7
                have e7 := read_u32le_ok s.data (pos + 4 + 4 + 4 + 4 + 4 + 4) h7
                by_cases h8 : s.data.length < pos + 4 + 4 + 4 + 4 + 4 + 4 + 4 + 4
                · simp only [read_smpl_metadata, hf, ByteStream.seek, if_neg hns,
                    e1, e2, e3, e4, e5, e6, e7,
                    read_u32le_eof s.data (pos + 4 + 4 + 4 + 4 + 4 + 4 + 4) h8]
                · push_neg at h8
                  have e8 := read_u32le_ok s.data (pos + 4 + 4 + 4 + 4 + 4 + 4 + 4) h8
                  by_cases h9 : s.data.length < pos + 4 + 4 + 4 + 4 + 4 + 4 + 4 + 4 + 4
                  · simp only [read_smpl_metadata, hf, ByteStream.seek, if_neg hns,
                      e1, e2, e3, e4, e5, e6, e7, e8,
                      read_u32le_eof s.data (pos + 4 + 4 + 4 + 4 + 4 + 4 + 4 + 4) h9]
                  · push_neg at h9
                    have e9 := read_u32le_ok s.data (pos + 4 + 4 + 4 + 4 + 4 + 4 + 4 + 4) h9
                    have hnum :
                        u32le ((s.data.drop (pos + 4 + 4 + 4 + 4 + 4 + 4 + 4)).take 4) = n := by
                      rw [hn]
                    have e10 := readLoops_eof s.data n
                      (pos + 4 + 4 + 4 + 4 + 4 + 4 + 4 + 4 + 4) (by omega) (by omega)
                    simp only [read_smpl_metadata, hf, ByteStream.seek, if_neg hns,
                      e1, e2, e3, e4, e5, e6, e7, e8, e9, hnum, e10]

/-- Claim C1: the metadata mapper is a total function of its (possibly
absent) inputs, and its replacement table applies exactly the documented
defaulting policy: sample rate from the format info or 44100; sample length
from the length calculator or 0; root key from the `smpl` metadata or 60;
loop start/end from the first loop descriptor or 0/0; has-loop true iff the
loop list is non-empty; sample start always 0; sample end
`max(sample length - 1, 0)`. -/
theorem C1_mapper_defaults (wp : WavPath) (fmt : Option FormatInfo)
    (smpl : Option SampleMetadata) (len? : Option Nat) :
    preset_replacements wp fmt smpl len? =
      [(filenameTok, wp.name),
       (basenameTok, wp.stem),
       (rootKeyTok, toString (rootKeyVal smpl)),
       (loopStartTok, toString (loopStartVal smpl)),
       (loopEndTok, toString (loopEndVal smpl)),
       (hasLoopTok, hasLoopVal smpl),
       (sampleRateTok, toString (sampleRateVal fmt)),
       (sampleLenTok, toString (len?.getD 0)),
       (sampleStartTok, "0"),
       (sampleEndTok, toString (max (len?.getD 0 - 1) 0))] := by
  rcases smpl with _ | ⟨rk, loops⟩
  · rcases fmt <;> rcases len? <;> rfl
  · rcases loops <;> rcases fmt <;> rcases len? <;> rfl

/-- Claim C7: only the first loop descriptor influences the mapper's
output — extra descriptors change nothing — and has-loop is true for a
non-empty loop list but false for an (otherwise well-formed) empty one. -/
theorem C7_first_loop_only (wp : WavPath) (fmt : Option FormatInfo) (len? : Option Nat)
    (rk : Nat) (l : LoopDescriptor) (rest : List LoopDescriptor) :
    (preset_replacements wp fmt (some ⟨rk, l :: rest⟩) len? =
       preset_replacements wp fmt (some ⟨rk, [l]⟩) len?) ∧
    ((preset_replacements wp fmt (some ⟨rk, l :: rest⟩) len?).lookup loopStartTok =
       some (toString l.start)) ∧
    ((preset_replacements wp fmt (some ⟨rk, l :: rest⟩) len?).lookup loopEndTok =
       some (toString l.«end»)) ∧
    ((preset_replacements wp fmt (some ⟨rk, l :: rest⟩) len?).lookup hasLoopTok =
       some "true") ∧
    ((preset_replacements wp fmt (some ⟨rk, []⟩) len?).lookup hasLoopTok =
       some "false") := by
  exact ⟨rfl, rfl, rfl, rfl, rfl⟩

/-- Claim C10: template substitution is sequential: the ten replacements
are applied one after another in the fixed source order, each replacing all
occurrences in the intermediate string, so a substituted value that itself
contains a later token (here a base name containing the ROOT_KEY token) has
that embedded token replaced as well. -/
theorem C10_sequential_replacement (template : String) (wp : WavPath)
    (fmt : Option FormatInfo) (smpl : Option SampleMetadata) (len? : Option Nat) :
    (make_preset_text template wp fmt smpl len? =
       pyReplace
         (pyReplace
           (pyReplace
             (pyReplace
               (pyReplace
                 (pyReplace
                   (pyReplace
                     (pyReplace
                       (pyReplace
                         (pyReplace template filenameTok wp.name)
                         basenameTok wp.stem)
                       rootKeyTok (toString (rootKeyVal smpl)))
                     loopStartTok (toString (loopStartVal smpl)))
                   loopEndTok (toString (loopEndVal smpl)))
                 hasLoopTok (hasLoopVal smpl))
               sampleRateTok (toString (sampleRateVal fmt)))
             sampleLenTok (toString (len?.getD 0)))
           sampleStartTok "0")
         sampleEndTok (toString (max (len?.getD 0 - 1) 0))) ∧
    make_preset_text basenameTok { name := "x.wav", stem := "a" ++ rootKeyTok ++ "b" }
      none none none = "a60b" := by
  constructor
  · rcases smpl with _ | ⟨rk, loops⟩
    · rcases fmt <;> rcases len? <;> rfl
    · rcases loops <;> rcases fmt <;> rcases len? <;> rfl
  · rfl

/-- The decoded loop list of `decodeLoops` has exactly `n` records. -/
lemma decodeLoops_length (data : List Nat) :
    ∀ (n p : Nat), (decodeLoops data p n).length = n := by
  intro n
  induction n with
  | zero => intro p; rfl
  | succ n ih => intro p; simp [decodeLoops, ih]

/-- Claim C2: the length calculator returns
`declared data byte length / (channels * bits-per-sample / 8)` (floor
division) when the format info and `data` chunk are present and the
bytes-per-frame is non-zero, and absent exactly when the format info is
absent, the chunk is absent, or bytes-per-frame is zero; concretely, 2
channels at 16 bits (4-byte frames) with 10 data bytes give 2 frames,
dropping the 2 trailing bytes. -/
theorem C2_sample_length (s s' : ByteStream) (fm : FormatInfo) (p D : Nat) :
    (read_sample_length s none = Except.ok (none, s)) ∧
    (find_chunk s dataTag = Except.ok (none, s') →
       read_sample_length s (some fm) = Except.ok (none, s')) ∧
    (find_chunk s dataTag = Except.ok (some (p, D), s') →
       fm.num_channels * fm.bits_per_sample / 8 = 0 →
       read_sample_length s (some fm) = Except.ok (none, s')) ∧
    (find_chunk s dataTag = Except.ok (some (p, D), s') →
       fm.num_channels * fm.bits_per_sample / 8 ≠ 0 →
       read_sample_length s (some fm) =
         Except.ok (some (D / (fm.num_channels * fm.bits_per_sample / 8)), s')) ∧
    read_sample_length ⟨streamDataChunk, 0⟩ (some ⟨1, 2, 44100, 16⟩) =
      Except.ok (some 2, ⟨streamDataChunk, 20⟩) := by
  refine ⟨rfl, ?_, ?_, ?_, rfl⟩
  · intro h; simp only [read_sample_length, h]
  · intro h hz; simp only [read_sample_length, h, if_pos hz]
  · intro h hz; simp only [read_sample_length, h, if_neg hz]

/-- Claim C3: with a found `smpl` chunk of declared length at least 36
holding `n` in its loop-count field, the decoder reads the 9 header u32s
and then exactly `n` 24-byte loop records, finishing at chunk data start
plus `36 + 24 * n` — the declared length is never checked against this
extent — and when fewer bytes are available it fails with the end-of-stream
error rather than returning a partial result. -/
theorem C3_smpl_decode (s s1 : ByteStream) (pos size n : Nat)
    (hf : find_chunk s smplTag = Except.ok (some (pos, size), s1))
    (hsz : 36 ≤ size)
    (hn : n = u32le ((s.data.drop (pos + 28)).take 4)) :
    (pos + 36 + 24 * n ≤ s.data.length →
       read_smpl_metadata s =
         Except.ok (some { root_key := u32le ((s.data.drop (pos + 12)).take 4),
                           loops := decodeLoops s.data (pos + 36) n },
                    ⟨s.data, pos + 36 + 24 * n⟩)) ∧
    (decodeLoops s.data (pos + 36) n).length = n ∧
    (s.data.length < pos + 36 + 24 * n →
       read_smpl_metadata s = Except.error PErr.eofU32) := by
  exact ⟨fun hfit => read_smpl_ok s pos size n s1 hf hsz hn hfit,
         decodeLoops_length s.data n (pos + 36),
         fun hover => read_smpl_eof s pos size n s1 hf hsz hn hover⟩

/-- Claim C4: on a non-matching chunk the scan loop continues at the chunk
data start plus the declared length rounded up to the next even number (one
pad byte for odd lengths); concretely, a chunk with declared length 15 is
skipped as 16 data bytes and the following `data` chunk is found. -/
theorem C4_skip_rounds_to_even (data tag : List Nat) (fuel pos : Nat)
    (h8 : pos + 8 ≤ data.length)
    (hne : (data.drop pos).take 4 ≠ tag) :
    (findChunkLoop data tag (fuel + 1) pos =
       findChunkLoop data tag fuel
         (pos + 8 + (u32le ((data.drop (pos + 4)).take 4) +
           u32le ((data.drop (pos + 4)).take 4) % 2))) ∧
    find_chunk ⟨streamOddChunk, 0⟩ dataTag =
      Except.ok (some (44, 4), ⟨streamOddChunk, 44⟩) := by
  constructor
  · have hlen : ¬ ((data.drop pos).take 8).length < 8 := by
      rw [List.length_take, List.length_drop]; omega
    have htake : ((data.drop pos).take 8).take 4 = (data.drop pos).take 4 := by
      rw [List.take_take]; norm_num
    have hne' : ¬ ((data.drop pos).take 8).take 4 = tag := by
      rw [htake]; exact hne
    have hdrop : ((data.drop pos).take 8).drop 4 = (data.drop (pos + 4)).take 4 := by
      rw [List.drop_take, List.drop_drop]
    simp only [findChunkLoop, if_neg hlen, if_neg hne', hdrop]
  · rfl

/-- Claim C5: `find_chunk` raises the invalid-container error exactly when
the first 12 bytes are not `RIFF <u32> WAVE` (including when fewer than 12
bytes exist); with a valid header it always returns a (possibly absent)
result, and when fewer than 8 bytes remain for a chunk header during the
scan the outcome is the absent value, not an error. -/
theorem C5_header_validation (s : ByteStream) (tag : List Nat) (pos fuel : Nat) :
    (¬ validRiffWave s.data → find_chunk s tag = Except.error PErr.notRiffWave) ∧
    (validRiffWave s.data → ∃ r s2, find_chunk s tag = Except.ok (r, s2)) ∧
    (s.data.length < pos + 8 → (findChunkLoop s.data tag (fuel + 1) pos).1 = none) := by
  refine ⟨find_chunk_invalid s tag, ?_, ?_⟩
  · intro hv; exact ⟨_, _, find_chunk_valid s tag hv⟩
  · intro hshort
    have hl : ((s.data.drop pos).take 8).length < 8 := by
      rw [List.length_take, List.length_drop]; omega
    simp only [findChunkLoop, if_pos hl]

/-- Claim C6: with the `fmt ` chunk present, the format decoder raises its
chunk-too-small error exactly when the declared length is under 16; with
the `smpl` chunk present, the sample-loop decoder raises its
chunk-too-small error exactly when the declared length is under 36; and
when the respective chunk is absent each decoder returns the absent value
without raising. -/
theorem C6_chunk_too_small (s s1 : ByteStream) (pos size : Nat) :
    (find_chunk s fmtTag = Except.ok (none, s1) →
       read_fmt_metadata s = Except.ok (none, s1)) ∧
    (find_chunk s fmtTag = Except.ok (some (pos, size), s1) →
       (read_fmt_metadata s = Except.error PErr.fmtTooSmall ↔ size < 16)) ∧
    (find_chunk s smplTag = Except.ok (none, s1) →
       read_smpl_metadata s = Except.ok (none, s1)) ∧
    (find_chunk s smplTag = Except.ok (some (pos, size), s1) →
       (read_smpl_metadata s = Except.error PErr.smplTooSmall ↔ size < 36)) := by
  refine ⟨?_, ?_, ?_, ?_⟩
  · intro h; simp only [read_fmt_metadata, h]
  · intro h
    constructor
    · intro hr
      by_contra hlt
      push_neg at hlt
      simp only [read_fmt_metadata, h, if_neg (by omega : ¬ size < 16)] at hr
      split at hr <;> simp at hr
    · intro hlt
      simp only [read_fmt_metadata, h, if_pos hlt]
  · intro h; simp only [read_smpl_metadata, h]
  · intro h
    constructor
    · intro hr
      by_contra hlt
      push_neg at hlt
      rcases Nat.lt_or_ge s.data.length
          (pos + 36 + 24 * u32le ((s.data.drop (pos + 28)).take 4)) with hc | hc
      · rw [read_smpl_eof s pos size _ s1 h hlt rfl hc] at hr
        simp at hr
      · rw [read_smpl_ok s pos size _ s1 h hlt rfl hc] at hr
        simp at hr
    · intro hlt
      simp only [read_smpl_metadata, h, if_pos hlt]

/-- Claim C8: `find_chunk` is re-entrant: it seeks back to byte 0, so its
result depends only on the stream's bytes and the tag, never on the
position left by a previous call, and a second identical call returns the
same found result again. -/
theorem C8_reentrant (data tag : List Nat) (p q : Nat) :
    (find_chunk ⟨data, p⟩ tag = find_chunk ⟨data, q⟩ tag) ∧
    (∀ (r : Option (Nat × Nat)) (s' : ByteStream),
       find_chunk ⟨data, p⟩ tag = Except.ok (r, s') →
       find_chunk s' tag = Except.ok (r, s')) := by
  refine ⟨rfl, ?_⟩
  intro r s' h
  have hd : s'.data = data := find_chunk_data ⟨data, p⟩ tag r s' h
  have key : find_chunk s' tag = find_chunk ⟨data, p⟩ tag := by
    calc find_chunk s' tag = find_chunk ⟨s'.data, s'.pos⟩ tag := rfl
      _ = find_chunk ⟨data, s'.pos⟩ tag := by rw [hd]
      _ = find_chunk ⟨data, p⟩ tag := find_chunk_pos_irrel data tag s'.pos p
  rw [key]
  exact h

/-- Claim C9: the MIDI unity note is propagated verbatim with no range
check: whatever u32 value the field holds (even above 127) becomes the
decoded root key and its decimal string becomes the ROOT_KEY substitution;
the 60 default applies only when the `smpl` chunk is absent. -/
theorem C9_root_key_verbatim (s s1 : ByteStream) (pos size n v : Nat) (wp : WavPath)
    (fmt : Option FormatInfo) (len? : Option Nat) (loops : List LoopDescriptor)
    (hf : find_chunk s smplTag = Except.ok (some (pos, size), s1))
    (hsz : 36 ≤ size)
    (hn : n = u32le ((s.data.drop (pos + 28)).take 4))
    (hfit : pos + 36 + 24 * n ≤ s.data.length)
    (hv : v = u32le ((s.data.drop (pos + 12)).take 4)) :
    (read_smpl_metadata s =
       Except.ok (some { root_key := v, loops := decodeLoops s.data (pos + 36) n },
                  ⟨s.data, pos + 36 + 24 * n⟩)) ∧
    ((preset_replacements wp fmt (some ⟨v, loops⟩) len?).lookup rootKeyTok =
       some (toString v)) ∧
    ((preset_replacements wp fmt none len?).lookup rootKeyTok = some "60") := by
  subst hv
  refine ⟨read_smpl_ok s pos size n s1 hf hsz hn hfit, ?_, rfl⟩
  rcases loops with _ | ⟨l, rest⟩ <;> rfl

/-- Witness for C2 on concrete streams: a stream without a `data` chunk
gives the absent length, a zero bytes-per-frame format gives the absent
length, and 10 data bytes at 4 bytes per frame give 2 frames. -/
theorem C2_sample_length_witness :
    read_sample_length ⟨streamHeaderOnly, 0⟩ (some ⟨1, 2, 44100, 16⟩) =
      Except.ok (none, ⟨streamHeaderOnly, 12⟩) ∧
    read_sample_length ⟨streamDataChunk, 0⟩ (some ⟨1, 0, 44100, 0⟩) =
      Except.ok (none, ⟨streamDataChunk, 20⟩) ∧
    read_sample_length ⟨streamDataChunk, 0⟩ (some ⟨1, 2, 44100, 16⟩) =
      Except.ok (some 2, ⟨streamDataChunk, 20⟩) := by
  refine ⟨?_, ?_, ?_⟩
  · exact (C2_sample_length ⟨streamHeaderOnly, 0⟩ ⟨streamHeaderOnly, 12⟩
      ⟨1, 2, 44100, 16⟩ 0 0).2.1 rfl
  · exact (C2_sample_length ⟨streamDataChunk, 0⟩ ⟨streamDataChunk, 20⟩
      ⟨1, 0, 44100, 0⟩ 20 10).2.2.1 rfl (by decide)
  · exact (C2_sample_length ⟨streamDataChunk, 0⟩ ⟨streamDataChunk, 20⟩
      ⟨1, 2, 44100, 16⟩ 20 10).2.2.2.1 rfl (by decide)

/-- Witness for C3 on concrete streams: the 80-byte one-loop `smpl` stream
decodes to root key 72 with one loop record and final position 80, and the
same stream truncated by one byte fails with the end-of-stream error. -/
theorem C3_smpl_decode_witness :
    read_smpl_metadata ⟨streamSmplOneLoop, 0⟩ =
      Except.ok (some { root_key := 72, loops := [oneLoopRecord] },
        ⟨streamSmplOneLoop, 80⟩) ∧
    read_smpl_metadata ⟨streamSmplTrunc, 0⟩ = Except.error PErr.eofU32 := by
  constructor
  · exact (C3_smpl_decode ⟨streamSmplOneLoop, 0⟩ ⟨streamSmplOneLoop, 20⟩ 20 60 1 rfl
      (by norm_num) rfl).1 (by decide)
  · exact (C3_smpl_decode ⟨streamSmplTrunc, 0⟩ ⟨streamSmplTrunc, 20⟩ 20 60 1 rfl
      (by norm_num) rfl).2.2 (by decide)

/-- Witness for C4 on a concrete stream: the scan steps over the odd
15-byte `JUNK` chunk by 16 bytes (from scan position 12 to 36) and then
finds the `data` chunk at offset 44. -/
theorem C4_skip_rounds_to_even_witness :
    findChunkLoop streamOddChunk dataTag 48 12 = findChunkLoop streamOddChunk dataTag 47 36 ∧
    find_chunk ⟨streamOddChunk, 0⟩ dataTag =
      Except.ok (some (44, 4), ⟨streamOddChunk, 44⟩) := by
  have h := C4_skip_rounds_to_even streamOddChunk dataTag 47 12 (by decide) (by decide)
  exact ⟨h.1, h.2⟩

/-- Witness for C5 on concrete streams: a 3-byte stream raises the
container error, the bare 12-byte envelope yields a successful
(chunk-absent) result, and the scan loop reports not-found where fewer
than 8 bytes remain. -/
theorem C5_header_validation_witness :
    find_chunk ⟨[1, 2, 3], 0⟩ dataTag = Except.error PErr.notRiffWave ∧
    (∃ r s2, find_chunk ⟨streamHeaderOnly, 0⟩ dataTag = Except.ok (r, s2)) ∧
    (findChunkLoop streamHeaderOnly dataTag 5 12).1 = none := by
  refine ⟨(C5_header_validation ⟨[1, 2, 3], 0⟩ dataTag 12 4).1 (by decide),
          (C5_header_validation ⟨streamHeaderOnly, 0⟩ dataTag 12 4).2.1 (by decide),
          (C5_header_validation ⟨streamHeaderOnly, 0⟩ dataTag 12 4).2.2 (by decide)⟩

/-- Witness for C6 on concrete streams: a `fmt ` chunk declared at 8 bytes
and a `smpl` chunk declared at 20 bytes raise the respective
chunk-too-small errors, while a stream without either chunk returns the
absent value from both decoders. -/
theorem C6_chunk_too_small_witness :
    read_fmt_metadata ⟨streamSmallFmt, 0⟩ = Except.error PErr.fmtTooSmall ∧
    read_smpl_metadata ⟨streamSmallSmpl, 0⟩ = Except.error PErr.smplTooSmall ∧
    read_fmt_metadata ⟨streamHeaderOnly, 0⟩ = Except.ok (none, ⟨streamHeaderOnly, 12⟩) ∧
    read_smpl_metadata ⟨streamHeaderOnly, 0⟩ = Except.ok (none, ⟨streamHeaderOnly, 12⟩) := by
  refine ⟨?_, ?_, ?_, ?_⟩
  · exact ((C6_chunk_too_small ⟨streamSmallFmt, 0⟩ ⟨streamSmallFmt, 20⟩ 20 8).2.1
      rfl).mpr (by decide)
  · exact ((C6_chunk_too_small ⟨streamSmallSmpl, 0⟩ ⟨streamSmallSmpl, 20⟩ 20 20).2.2.2
      rfl).mpr (by decide)
  · exact (C6_chunk_too_small ⟨streamHeaderOnly, 0⟩ ⟨streamHeaderOnly, 12⟩ 0 0).1 rfl
  · exact (C6_chunk_too_small ⟨streamHeaderOnly, 0⟩ ⟨streamHeaderOnly, 12⟩ 0 0).2.2.1 rfl

/-- Witness for C8 on a concrete stream: calling `find_chunk` again on the
stream state left by a successful call returns the same found chunk. -/
theorem C8_reentrant_witness :
    find_chunk ⟨streamDataChunk, 20⟩ dataTag =
      Except.ok (some (20, 10), ⟨streamDataChunk, 20⟩) :=
  (C8_reentrant streamDataChunk dataTag 0 0).2 (some (20, 10)) ⟨streamDataChunk, 20⟩ rfl

/-- Witness for C9 on a concrete stream: a `smpl` chunk storing 200 (out of
MIDI range) yields root key 200 and the substitution string "200", while an
absent chunk yields the "60" default. -/
theorem C9_root_key_verbatim_witness :
    read_smpl_metadata ⟨streamSmplHighKey, 0⟩ =
      Except.ok (some { root_key := 200, loops := [] }, ⟨streamSmplHighKey, 56⟩) ∧
    (preset_replacements ⟨"k.wav", "k"⟩ none (some ⟨200, []⟩) none).lookup rootKeyTok =
      some "200" ∧
    (preset_replacements ⟨"k.wav", "k"⟩ none none none).lookup rootKeyTok = some "60" := by
  have h := C9_root_key_verbatim ⟨streamSmplHighKey, 0⟩ ⟨streamSmplHighKey, 20⟩ 20 36 0 200
    ⟨"k.wav", "k"⟩ none none [] rfl (by norm_num) rfl (by decide) rfl
  exact ⟨h.1, h.2.1, h.2.2⟩
